import Mathlib

/-!
Shallow embedding of the condition-polling and readiness core of the
mcp-chromium-cdp repository:

* `checkStability`, `checkElementState`, `isReady` embed
  `src/services/element-readiness-service.ts` (ElementReadinessService).
* `ensureConnectedSeq` and the two-caller system `sysStep`/`sysRun` embed
  `ChromeController.ensureConnected` / `connect` from the main controller file.
* `waitFor` (with `stepConds`, `waitLoop`, `getActualState`) embeds
  `WaitService.waitFor` from `src/services/wait-service.ts`.

Driver calls (CDP DOM queries, Runtime.evaluate, network events) are
external, so every probe outcome is drawn from an explicit oracle record;
an oracle value of `none` / `.err` models the corresponding driver promise
rejecting, which the source either catches or lets propagate, exactly as
each translated branch records.  Wall-clock time is idealized: probes take
no model time and the `i`-th poll iteration happens at `i * pollInterval`
milliseconds after the call started (the source reads `Date.now()`; only
sleep-based suspension advances time in the model).
-/

namespace ChromiumCdp

/-! ## Element readiness service (`element-readiness-service.ts`) -/

/-- Viewport rectangle `{x, y, width, height}`.  The source stores JS
floating-point pixels; rationals give the same verdict for the literal
tolerance comparisons performed here. -/
structure Rect where
  x : ℚ
  y : ℚ
  width : ℚ
  height : ℚ
deriving Repr, DecidableEq

/-- Result of `checkElementState`: visibility, enablement, positional
stability, plus the bounding box when one was read. -/
structure ElementState where
  visible : Bool
  enabled : Bool
  stable : Bool
  boundingBox : Option Rect
deriving Repr, DecidableEq

/-- The terminal "not found" state `{visible:false, enabled:false, stable:false}`
returned by every failure path of `checkElementState`. -/
def notFoundState : ElementState :=
  { visible := false, enabled := false, stable := false, boundingBox := none }

/-- Embeds `checkStability(selector, initialBox)`: the second bounding-box sample,
taken after the 100 ms settle sleep.  `secondSample = none` folds together
every path the source turns into `return false`: the in-page script finding
no element (returns `null`), a falsy evaluate value, or the probe throwing
(the surrounding `try`/`catch`).  `some newBox` is a successfully read box;
the element is stable when every field moved strictly less than 1 unit. -/
def checkStability (secondSample : Option Rect) (initialBox : Rect) : Bool :=
  match secondSample with
  | none => false
  | some newBox =>
    decide (|newBox.x - initialBox.x| < 1) &&
    decide (|newBox.y - initialBox.y| < 1) &&
    decide (|newBox.width - initialBox.width| < 1) &&
    decide (|newBox.height - initialBox.height| < 1)

/-- Outcome of one `Runtime.evaluate` driver call: the promise rejected
(`err`), it resolved carrying `exceptionDetails` (`exn`), or it resolved
with a value (`val`). -/
inductive EvalOutcome (α : Type) where
  | err : EvalOutcome α
  | exn : EvalOutcome α
  | val : α → EvalOutcome α
deriving Repr, DecidableEq

/-- The object the in-page check script of `checkElementState` returns when
it finds the element: computed visibility, enablement, and the first
bounding-box sample. -/
structure ElemInfo where
  visible : Bool
  enabled : Bool
  boundingBox : Rect
deriving Repr, DecidableEq

/-- Oracle for the three driver interactions of one `checkElementState`
call.  `queryNodeId = none` models `DOM.getDocument`/`DOM.querySelector`
rejecting (caught by the outer `try`); `some 0` is the protocol's
"no match" node id.  `checkEval = .val none` models the check script
returning `null`.  `stabilitySample` feeds `checkStability`. -/
structure ElemProbes where
  queryNodeId : Option Nat
  checkEval : EvalOutcome (Option ElemInfo)
  stabilitySample : Option Rect
deriving Repr, DecidableEq

/-- Embeds `checkElementState(selector)`.  Total by construction: every driver
failure branch (`catch`, falsy node id, `exceptionDetails`, `null` script
value) returns `notFoundState` instead of propagating, exactly as in the
source. -/
def checkElementState (p : ElemProbes) : ElementState :=
  match p.queryNodeId with
  | none => notFoundState
  | some nodeId =>
    if nodeId = 0 then notFoundState
    else
      match p.checkEval with
      | .err => notFoundState
      | .exn => notFoundState
      | .val none => notFoundState
      | .val (some info) =>
        let stable := checkStability p.stabilitySample info.boundingBox
        { visible := info.visible, enabled := info.enabled, stable := stable,
          boundingBox := some info.boundingBox }

/-- Embeds `isReady(state)`: visible AND enabled AND stable. -/
def isReady (s : ElementState) : Bool :=
  s.visible && s.enabled && s.stable

/-! ## Connection lifecycle manager (`ChromeController`) -/

/-- Constant `MAX_RECONNECTION_RETRIES` from the controller. -/
def maxReconnectionRetries : Nat := 5

/-- Constant `RECONNECTION_RETRY_DELAY_MS` from the controller. -/
def reconnectionRetryDelayMs : Nat := 2000

/-- Observable summary of one uncontended `ensureConnected` retry loop:
whether it returned normally (`ok = true`) or threw the terminal
"Failed to reconnect to Chromium after maximum retries" error
(`ok = false`), how many times `connect()` was invoked, how many
fixed-delay backoff sleeps ran, and the value of the `reconnecting`
flag when the call finished. -/
structure ReconnectRun where
  ok : Bool
  connectCalls : Nat
  backoffSleeps : Nat
  reconnectingAfter : Bool
deriving Repr, DecidableEq

/-- The `for (let attempt = 1; attempt <= maxRetries; attempt++)` loop of
`ensureConnected`, entered with the `reconnecting` flag already set.
`connectSucceeds k` is the outcome of the `connect()` call of attempt `k`
(`connect()` rejecting is the `catch` branch).  On success the flag is
cleared and the loop returns; on failure a backoff sleep runs only when
more attempts remain; after the loop the flag is cleared and the terminal
error is thrown. -/
def attemptFrom (connectSucceeds : Nat → Bool) (attempt : Nat) : ReconnectRun :=
  if h : maxReconnectionRetries < attempt then
    { ok := false, connectCalls := 0, backoffSleeps := 0, reconnectingAfter := false }
  else if connectSucceeds attempt then
    { ok := true, connectCalls := 1, backoffSleeps := 0, reconnectingAfter := false }
  else
    let rest := attemptFrom connectSucceeds (attempt + 1)
    { ok := rest.ok,
      connectCalls := rest.connectCalls + 1,
      backoffSleeps := rest.backoffSleeps +
        (if attempt < maxReconnectionRetries then 1 else 0),
      reconnectingAfter := rest.reconnectingAfter }
termination_by maxReconnectionRetries + 1 - attempt
decreasing_by
  simp only [maxReconnectionRetries] at *
  omega

/-- Embeds `ensureConnected()` taken on the path where no live client exists and
no reconnect is in flight: the attempt loop starting at attempt 1. -/
def ensureConnectedSeq (connectSucceeds : Nat → Bool) : ReconnectRun :=
  attemptFrom connectSucceeds 1

/-- Program counter of one caller inside `ensureConnected`, with one state
per suspension point (code between two `await`s runs atomically on the JS
event loop):
* `start` — about to run the entry block (`if (this.client) return;` /
  `if (this.reconnecting)` / set the flag and begin attempt 1);
* `sleeping` — inside the retry-delay sleep of the wait branch, after
  which the source recursively re-invokes `ensureConnected`;
* `inConnect k` — awaiting the `connect()` promise of attempt `k`;
* `backoff k` — inside the between-attempts sleep after failed attempt `k`;
* `doneOk` / `doneErr` — returned normally / threw. -/
inductive CallerPc where
  | start
  | sleeping
  | inConnect (attempt : Nat)
  | backoff (attempt : Nat)
  | doneOk
  | doneErr
deriving Repr, DecidableEq

/-- Shared controller state plus the program counters of two concurrent
`ensureConnected` callers.  `client` is whether `this.client` is non-null,
`reconnecting` the shared in-flight flag, `connects` how many `connect()`
invocations have started so far. -/
structure Sys where
  client : Bool
  reconnecting : Bool
  connects : Nat
  p0 : CallerPc
  p1 : CallerPc
deriving Repr, DecidableEq

/-- One atomic block of one caller.  `oracle n` is the outcome of the
`n`-th `connect()` invocation (numbered from 1); a successful `connect()`
assigns `this.client` inside `connect` itself.  Returns the updated shared
state and the caller's next program counter. -/
def stepPc (oracle : Nat → Bool) (s : Sys) (pc : CallerPc) : Sys × CallerPc :=
  match pc with
  | .start =>
    if s.client then (s, .doneOk)
    else if s.reconnecting then (s, .sleeping)
    else ({ s with reconnecting := true, connects := s.connects + 1 }, .inConnect 1)
  | .sleeping => (s, .start)
  | .inConnect k =>
    if oracle s.connects then
      ({ s with client := true, reconnecting := false }, .doneOk)
    else if k < maxReconnectionRetries then (s, .backoff k)
    else ({ s with reconnecting := false }, .doneErr)
  | .backoff k => ({ s with connects := s.connects + 1 }, .inConnect (k + 1))
  | .doneOk => (s, .doneOk)
  | .doneErr => (s, .doneErr)

/-- Run one scheduler choice: `who = false` steps caller 0, `who = true`
steps caller 1. -/
def sysStep (oracle : Nat → Bool) (s : Sys) (who : Bool) : Sys :=
  match who with
  | true =>
    let r := stepPc oracle s s.p1
    { r.1 with p1 := r.2 }
  | false =>
    let r := stepPc oracle s s.p0
    { r.1 with p0 := r.2 }

/-- Run a whole schedule (a list of caller choices). -/
def sysRun (oracle : Nat → Bool) (sched : List Bool) (s : Sys) : Sys :=
  sched.foldl (sysStep oracle) s

/-- Both callers invoke `ensureConnected` right after a single disconnect
event nulled the handle: no live client, flag clear, no connects yet. -/
def initSys : Sys :=
  { client := false, reconnecting := false, connects := 0, p0 := .start, p1 := .start }

/-- A caller is inside the attempt sequence (between setting and clearing
the `reconnecting` flag). -/
def inSection : CallerPc → Bool
  | .inConnect _ => true
  | .backoff _ => true
  | _ => false

/-- Mutual-exclusion invariant: the two callers are never both inside the
attempt sequence, and the shared flag is set exactly while one of them is. -/
def mutexInv (s : Sys) : Prop :=
  (inSection s.p0 && inSection s.p1) = false ∧
  s.reconnecting = (inSection s.p0 || inSection s.p1)

/-! ## Wait service (`wait-service.ts`, `WaitService.waitFor`) -/

/-- Constant `DEFAULT_WAIT_TIMEOUT_MS`. -/
def defaultWaitTimeoutMs : Nat := 5000

/-- Constant `MAX_WAIT_TIMEOUT_MS`. -/
def maxWaitTimeoutMs : Nat := 30000

/-- Constant `WAIT_CHECK_INTERVAL_MS`. -/
def waitCheckIntervalMs : Nat := 100

/-- One driver-visible effect of a `waitFor` call.  `cbRemoved` is the
removal of a previously registered network-event callback: the CDP client
offers listener removal, but no line of `waitFor` performs it, so no
branch of the embedding emits this event. -/
inductive DriverEvent where
  | networkEnable
  | cbRequestWillBeSent
  | cbLoadingFinished
  | networkDisable
  | cbRemoved
  | domQuery
  | textEval
  | urlEval
deriving Repr, DecidableEq

/-- Errors `waitFor` can throw.  `scriptExecutionFailed` is the
`Script execution failed: ...` error raised when the text-probe script
evaluates with `exceptionDetails`; `driverFault` is any driver promise
rejecting; `failedToWaitForConditions` is the wrapper the `catch` block
adds before rethrowing. -/
inductive WaitError where
  | scriptExecutionFailed
  | driverFault
  | failedToWaitForConditions : WaitError → WaitError
deriving Repr, DecidableEq

/-- Oracle for every driver interaction of one `waitFor` call.
`elementProbe i = none` models the DOM query of poll `i` throwing (caught,
condition set to false); `some found` is `nodeId !== undefined && nodeId !== 0`.
`textProbe` / `urlProbe` are the `Runtime.evaluate` calls of poll `i`
(`urlProbe i = none`: the evaluate promise rejected, which propagates).
`lastNetworkActivity i` is the value the network-event callbacks have left
in the mutable `lastNetworkActivity` timestamp when poll `i` reads it.
The `final*` fields feed the one `getActualState` pass after the loop. -/
structure WaitDriver where
  networkEnableOk : Bool
  elementProbe : Nat → Option Bool
  textProbe : Nat → EvalOutcome Bool
  urlProbe : Nat → Option String
  lastNetworkActivity : Nat → Nat
  finalUrl : Option String
  finalElementProbe : Option Bool
  finalTextProbe : EvalOutcome Bool

/-- The `options` argument of `waitFor`. -/
structure WaitOptions where
  element : Option String
  text : Option String
  url : Option String
  networkIdle : Option Nat
  timeout : Option Nat

/-- The `conditions` object: one optional satisfied-flag per condition
kind, `none` when the kind was not requested. -/
structure WaitConditions where
  element : Option Bool
  text : Option Bool
  url : Option Bool
  networkIdle : Option Bool
deriving Repr, DecidableEq

/-- The `actualState` block of the result. -/
structure ActualState where
  currentUrl : String
  elementFound : Bool
  textFound : Bool
deriving Repr, DecidableEq

/-- The resolved value of `waitFor`. -/
structure WaitResult where
  success : Bool
  conditions : WaitConditions
  actualState : ActualState
  timeElapsed : Nat
deriving Repr, DecidableEq

/-- JS truthiness of an optional string option: absent and the empty
string are both falsy (`options.element ? false : undefined`). -/
def strTruthy : Option String → Bool
  | none => false
  | some s => !(s == "")

/-- Embeds `Math.min(options.timeout || DEFAULT_WAIT_TIMEOUT_MS, MAX_WAIT_TIMEOUT_MS)`;
`||` makes a timeout of 0 fall back to the default. -/
def effectiveTimeout (o : Option Nat) : Nat :=
  min (match o with
       | some t => if t = 0 then defaultWaitTimeoutMs else t
       | none => defaultWaitTimeoutMs)
    maxWaitTimeoutMs

/-- The initial `conditions` object: `false` for every requested kind,
`undefined` (here `none`) for every other kind.  `networkIdle` presence is
tested with `!== undefined`, the string kinds with truthiness. -/
def initConditions (o : WaitOptions) : WaitConditions :=
  { element := if strTruthy o.element then some false else none,
    text := if strTruthy o.text then some false else none,
    url := if strTruthy o.url then some false else none,
    networkIdle := if o.networkIdle.isSome then some false else none }

/-- Element check of one poll iteration
(`if (options.element && !conditions.element)`): queries the DOM inside
`try`/`catch`; a throw sets the flag to `false`, otherwise the flag
records whether a node was found.  Never throws. -/
def checkElement (drv : WaitDriver) (o : WaitOptions) (i : Nat)
    (c : WaitConditions) : WaitConditions × List DriverEvent :=
  if strTruthy o.element = true then
    if c.element = some true then (c, [])
    else
      ({ c with element := some (match drv.elementProbe i with
                                 | none => false
                                 | some found => found) },
       [.domQuery])
  else (c, [])

/-- Text check of one poll iteration
(`if (options.text && !conditions.text)`): evaluates the
`document.body.innerText.includes(...)` script.  A rejected evaluate
propagates; `exceptionDetails` raises `Script execution failed`; a value
sets the flag only when the text was found. -/
def checkText (drv : WaitDriver) (o : WaitOptions) (i : Nat)
    (c : WaitConditions) : Except WaitError WaitConditions × List DriverEvent :=
  if strTruthy o.text = true then
    if c.text = some true then (.ok c, [])
    else
      match drv.textProbe i with
      | .err => (.error .driverFault, [.textEval])
      | .exn => (.error .scriptExecutionFailed, [.textEval])
      | .val found =>
        (.ok (if found then { c with text := some true } else c), [.textEval])
  else (.ok c, [])

/-- URL check of one poll iteration
(`if (options.url && !conditions.url)`): reads `window.location.href`
(a rejected evaluate propagates) and tests it against the caller pattern;
`urlTest pat u` models `new RegExp(pat).test(u)`. -/
def checkUrl (drv : WaitDriver) (urlTest : String → String → Bool)
    (o : WaitOptions) (i : Nat) (c : WaitConditions) :
    Except WaitError WaitConditions × List DriverEvent :=
  if strTruthy o.url = true then
    if c.url = some true then (.ok c, [])
    else
      match drv.urlProbe i with
      | none => (.error .driverFault, [.urlEval])
      | some u =>
        (.ok (if urlTest (o.url.getD "") u then { c with url := some true } else c),
         [.urlEval])
  else (.ok c, [])

/-- Network-idle check of one poll iteration: pure arithmetic on the
current time (`i * waitCheckIntervalMs`) and the mutable
`lastNetworkActivity` timestamp; the flag is set when the idle time has
reached the requested duration. -/
def checkNetworkIdle (drv : WaitDriver) (o : WaitOptions) (i : Nat)
    (c : WaitConditions) : WaitConditions :=
  if o.networkIdle.isSome = true then
    if c.networkIdle = some true then c
    else
      if o.networkIdle.getD 0 ≤ i * waitCheckIntervalMs - drv.lastNetworkActivity i
      then { c with networkIdle := some true }
      else c
  else c

/-- The body of one poll iteration: the four condition checks in source
order; a throw in an earlier check skips the later ones. -/
def stepConds (drv : WaitDriver) (urlTest : String → String → Bool)
    (o : WaitOptions) (i : Nat) (c : WaitConditions) :
    Except WaitError WaitConditions × List DriverEvent :=
  let r1 := checkElement drv o i c
  let r2 := checkText drv o i r1.1
  match r2.1 with
  | .error e => (.error e, r1.2 ++ r2.2)
  | .ok c2 =>
    let r3 := checkUrl drv urlTest o i c2
    match r3.1 with
    | .error e => (.error e, r1.2 ++ r2.2 ++ r3.2)
    | .ok c3 => (.ok (checkNetworkIdle drv o i c3), r1.2 ++ r2.2 ++ r3.2)

/-- One entry of `Object.values(conditions).every(v => v === undefined || v === true)`. -/
def optSat : Option Bool → Bool
  | none => true
  | some b => b

/-- Embeds the `allConditionsMet` computation. -/
def allConditionsMet (c : WaitConditions) : Bool :=
  optSat c.element && optSat c.text && optSat c.url && optSat c.networkIdle

/-- The `while (Date.now() - startTime < timeout)` poll loop.  Returns the
success flag, the final `conditions` object and the exit time, plus the
driver events of all iterations.  Poll `i` runs at model time
`i * waitCheckIntervalMs`; the fixed-interval sleep advances to the next
iteration. -/
def waitLoop (drv : WaitDriver) (urlTest : String → String → Bool)
    (o : WaitOptions) (timeout : Nat) (i : Nat) (c : WaitConditions) :
    Except WaitError (Bool × WaitConditions × Nat) × List DriverEvent :=
  if _h : i * waitCheckIntervalMs < timeout then
    let r := stepConds drv urlTest o i c
    match r.1 with
    | .error e => (.error e, r.2)
    | .ok c1 =>
      if allConditionsMet c1 then (.ok (true, c1, i * waitCheckIntervalMs), r.2)
      else
        let rest := waitLoop drv urlTest o timeout (i + 1) c1
        (rest.1, r.2 ++ rest.2)
  else (.ok (false, c, i * waitCheckIntervalMs), [])
termination_by timeout - i * waitCheckIntervalMs
decreasing_by
  simp only [waitCheckIntervalMs] at *
  omega

/-- Embeds `getActualState(options)`: one extra read pass after the loop.  The
URL read has no `exceptionDetails` check (a rejected evaluate propagates);
the element query is caught to `false`; the text probe propagates only a
rejected evaluate, while `exceptionDetails` just leaves `textFound` false. -/
def getActualState (drv : WaitDriver) (o : WaitOptions) :
    Except WaitError ActualState × List DriverEvent :=
  match drv.finalUrl with
  | none => (.error .driverFault, [.urlEval])
  | some currentUrl =>
    let elementFound : Bool :=
      if strTruthy o.element = true then
        match drv.finalElementProbe with
        | none => false
        | some found => found
      else false
    let evElem : List DriverEvent :=
      if strTruthy o.element = true then [.domQuery] else []
    if strTruthy o.text = true then
      match drv.finalTextProbe with
      | .err => (.error .driverFault, [.urlEval] ++ evElem ++ [.textEval])
      | .exn =>
        (.ok { currentUrl := currentUrl, elementFound := elementFound,
               textFound := false },
         [.urlEval] ++ evElem ++ [.textEval])
      | .val found =>
        (.ok { currentUrl := currentUrl, elementFound := elementFound,
               textFound := found },
         [.urlEval] ++ evElem ++ [.textEval])
    else
      (.ok { currentUrl := currentUrl, elementFound := elementFound,
             textFound := false },
       [.urlEval] ++ evElem)

/-- The `try` block of `waitFor` after the network-monitoring setup: run
the poll loop, then the `getActualState` pass used by both the success
and the timeout return. -/
def waitBody (drv : WaitDriver) (urlTest : String → String → Bool)
    (o : WaitOptions) (timeout : Nat) (c0 : WaitConditions) :
    Except WaitError WaitResult × List DriverEvent :=
  let r := waitLoop drv urlTest o timeout 0 c0
  match r.1 with
  | .error e => (.error e, r.2)
  | .ok v =>
    let gas := getActualState drv o
    match gas.1 with
    | .error e => (.error e, r.2 ++ gas.2)
    | .ok st =>
      (.ok { success := v.1, conditions := v.2.1, actualState := st,
             timeElapsed := v.2.2 },
       r.2 ++ gas.2)

/-- Embeds `WaitService.waitFor(options)`.  When `networkIdle` is requested,
`Network.enable` runs first (its rejection goes to the `catch` block) and
the two event callbacks are registered; the `catch` block wraps and
rethrows any error of the `try` block; the `finally` block invokes
`Network.disable` exactly when `networkIdle` was requested, on every exit
path (its own failure is swallowed). -/
def waitFor (drv : WaitDriver) (urlTest : String → String → Bool)
    (o : WaitOptions) : Except WaitError WaitResult × List DriverEvent :=
  let timeout := effectiveTimeout o.timeout
  let c0 := initConditions o
  let tryRun : Except WaitError WaitResult × List DriverEvent :=
    if o.networkIdle.isSome then
      if drv.networkEnableOk then
        let r := waitBody drv urlTest o timeout c0
        (r.1, [DriverEvent.networkEnable, .cbRequestWillBeSent, .cbLoadingFinished] ++ r.2)
      else (.error .driverFault, [DriverEvent.networkEnable])
    else waitBody drv urlTest o timeout c0
  let result : Except WaitError WaitResult :=
    match tryRun.1 with
    | .error e => .error (.failedToWaitForConditions e)
    | .ok r => .ok r
  (result,
   tryRun.2 ++ (if o.networkIdle.isSome then [DriverEvent.networkDisable] else []))

/-! ## The in-page text-probe script

`waitFor`'s text condition evaluates
`document.body.innerText.includes(textToFind)` in the page.  JS
`String.prototype.includes` is an exact, case-sensitive substring test;
it is modelled character-by-character below. -/

/-- Test `charsLeading needle hay`: `hay` starts with `needle`. -/
def charsLeading : List Char → List Char → Bool
  | [], _ => true
  | _ :: _, [] => false
  | a :: as, b :: bs => a == b && charsLeading as bs

/-- Test `charsContains hay needle`: some suffix of `hay` starts with `needle`. -/
def charsContains : List Char → List Char → Bool
  | [], needle => needle.isEmpty
  | a :: t, needle => charsLeading needle (a :: t) || charsContains t needle

/-- JS `hay.includes(needle)`. -/
def jsIncludes (hay needle : String) : Bool :=
  charsContains hay.data needle.data

/-- The text-probe script of `waitFor`, evaluated against a page whose
`document.body.innerText` is `bodyInnerText`:
`document.body.innerText.includes(textToFind)` (the search string is
injected via `JSON.stringify`, which round-trips the value unchanged). -/
def textProbeScript (bodyInnerText textToFind : String) : Bool :=
  jsIncludes bodyInnerText textToFind

/-- Character-wise lowercasing, used only to state that a page contains a
string "up to letter case". -/
def lowerStr (s : String) : String :=
  ⟨s.data.map Char.toLower⟩

/-! ## Concrete scenarios used by the claim analyses -/

deriving instance DecidableEq for Except

/-- Whether an `Except` value is a normal return (`ok`) rather than a
thrown error. -/
def isOkE {ε α : Type} : Except ε α → Bool
  | .ok _ => true
  | .error _ => false

/-- Shape invariant of the `conditions` object: each per-kind flag is
present exactly when that condition kind was requested. -/
def condShape (o : WaitOptions) (c : WaitConditions) : Prop :=
  c.element.isSome = strTruthy o.element ∧
  c.text.isSome = strTruthy o.text ∧
  c.url.isSome = strTruthy o.url ∧
  c.networkIdle.isSome = o.networkIdle.isSome

/-- Invariant of runs in which every `connect()` invocation succeeds: at
most one `connect()` ever starts, a connect count of zero with no caller
in the attempt section means no handle yet, and no caller ever reaches a
backoff sleep. -/
def succInv (s : Sys) : Prop :=
  mutexInv s ∧ s.connects ≤ 1 ∧
  ((s.client = false ∧ inSection s.p0 = false ∧ inSection s.p1 = false) →
    s.connects = 0) ∧
  (∀ k, s.p0 ≠ CallerPc.backoff k) ∧ (∀ k, s.p1 ≠ CallerPc.backoff k)

/-- Schedule refuting the "at most 5 `connect()` calls in total" reading:
caller 0 enters and exhausts its five attempts while caller 1 waits; the
waiting caller then finds the flag cleared and the handle still absent
and runs a second full five-attempt sequence. -/
def c2CexSched : List Bool :=
  [false, true] ++ List.replicate 9 false ++ List.replicate 11 true

/-- A URL-pattern test that never matches; stands in for `RegExp.test`
in runs whose url condition is absent. -/
def urlTestNever : String → String → Bool := fun _ _ => false

/-- Driver for the C3 counterexample: the text-probe script evaluates
with an exception (`exceptionDetails`) on every poll; everything else is
healthy. -/
def drvTextExn : WaitDriver :=
  { networkEnableOk := true,
    elementProbe := fun _ => some false,
    textProbe := fun _ => .exn,
    urlProbe := fun _ => some "u",
    lastNetworkActivity := fun _ => 0,
    finalUrl := some "u",
    finalElementProbe := some false,
    finalTextProbe := .val false }

/-- Options requesting only the text condition with a 1000 ms timeout. -/
def optsTextOnly (t : String) (tmo : Nat) : WaitOptions :=
  { element := none, text := some t, url := none, networkIdle := none,
    timeout := some tmo }

/-- Driver whose text probe evaluates the real in-page script
`document.body.innerText.includes(textToFind)` against a fixed page body,
with every other interaction healthy. -/
def drvTextPage (page t : String) : WaitDriver :=
  { networkEnableOk := true,
    elementProbe := fun _ => some false,
    textProbe := fun _ => .val (textProbeScript page t),
    urlProbe := fun _ => some "u",
    lastNetworkActivity := fun _ => 0,
    finalUrl := some "u",
    finalElementProbe := some false,
    finalTextProbe := .val (textProbeScript page t) }

/-- Driver for the C10 consequence run: the element is found on the first
poll but is gone again by the time the final `getActualState` pass runs. -/
def drvElementVanishes : WaitDriver :=
  { networkEnableOk := true,
    elementProbe := fun _ => some true,
    textProbe := fun _ => .val false,
    urlProbe := fun _ => some "u",
    lastNetworkActivity := fun _ => 0,
    finalUrl := some "u",
    finalElementProbe := some false,
    finalTextProbe := .val false }

/-- Options requesting only the element condition. -/
def optsElementOnly (sel : String) : WaitOptions :=
  { element := some sel, text := none, url := none, networkIdle := none,
    timeout := none }

end ChromiumCdp

namespace ChromiumCdp

/-! ## Helper lemmas -/

theorem attemptFrom_exhausted (oracle : Nat → Bool) (a : Nat)
    (ha : maxReconnectionRetries < a) :
    attemptFrom oracle a =
      { ok := false, connectCalls := 0, backoffSleeps := 0, reconnectingAfter := false } := by
  rw [attemptFrom]
  simp [ha]

theorem attemptFrom_hit (oracle : Nat → Bool) (a : Nat)
    (ha : a ≤ maxReconnectionRetries) (h : oracle a = true) :
    attemptFrom oracle a =
      { ok := true, connectCalls := 1, backoffSleeps := 0, reconnectingAfter := false } := by
  rw [attemptFrom]
  simp [Nat.not_lt.mpr ha, h]

theorem attemptFrom_miss (oracle : Nat → Bool) (a : Nat)
    (ha : a ≤ maxReconnectionRetries) (h : oracle a = false) :
    attemptFrom oracle a =
      { ok := (attemptFrom oracle (a + 1)).ok,
        connectCalls := (attemptFrom oracle (a + 1)).connectCalls + 1,
        backoffSleeps := (attemptFrom oracle (a + 1)).backoffSleeps +
          (if a < maxReconnectionRetries then 1 else 0),
        reconnectingAfter := (attemptFrom oracle (a + 1)).reconnectingAfter } := by
  rw [attemptFrom]
  simp [Nat.not_lt.mpr ha, h]

theorem attemptFrom_first_success (d : Nat) :
    ∀ (oracle : Nat → Bool) (a k : Nat), k - a = d → a ≤ k →
      k ≤ maxReconnectionRetries →
      (∀ j, a ≤ j → j < k → oracle j = false) → oracle k = true →
      attemptFrom oracle a =
        { ok := true, connectCalls := k - a + 1, backoffSleeps := k - a,
          reconnectingAfter := false } := by
  induction d with
  | zero =>
    intro oracle a k hd hak hk5 _hfail hsucc
    have hak2 : a = k := by omega
    subst hak2
    rw [attemptFrom_hit oracle a hk5 hsucc]
    simp
  | succ d ih =>
    intro oracle a k hd hak hk5 hfail hsucc
    have halt : a < k := by omega
    have hfa : oracle a = false := hfail a le_rfl halt
    rw [attemptFrom_miss oracle a (by omega) hfa]
    rw [ih oracle (a + 1) k (by omega) (by omega) hk5
      (fun j hj1 hj2 => hfail j (by omega) hj2) hsucc]
    have h5 : a < maxReconnectionRetries := by omega
    simp only [if_pos h5]
    have h1 : k - (a + 1) + 1 = k - a := by omega
    rw [h1]

/-! ## Claim theorems -/

/-- C5: the stability check reports stable exactly when each of the
fields x, y, width, height of the second bounding-box sample differs from
the first by strictly less than 1 unit; the sample pair
`{x:100.4, y:200.2, w:50, h:30}` against `{x:100, y:200, w:50, h:30}` is
stable, a second sample with `x:106` is not; and when the element cannot
be found on the second sample (or the probe throws), stable is false,
never true. -/
theorem checkStability_one_unit_tolerance :
    (∀ (probe : Option Rect) (init : Rect),
      checkStability probe init = true ↔
        ∃ nb, probe = some nb ∧ |nb.x - init.x| < 1 ∧ |nb.y - init.y| < 1 ∧
          |nb.width - init.width| < 1 ∧ |nb.height - init.height| < 1) ∧
    checkStability (some { x := 100.4, y := 200.2, width := 50, height := 30 })
      { x := 100, y := 200, width := 50, height := 30 } = true ∧
    checkStability (some { x := 106, y := 200.2, width := 50, height := 30 })
      { x := 100, y := 200, width := 50, height := 30 } = false ∧
    (∀ init : Rect, checkStability none init = false) := by
  refine ⟨?_, ?_, ?_, fun init => rfl⟩
  · intro probe init
    cases probe with
    | none => simp [checkStability]
    | some nb => simp [checkStability, and_assoc]
  · simp only [checkStability, abs_lt]
    norm_num
  · simp only [checkStability, abs_lt]
    norm_num

/-- C6: a readiness check never throws — `checkElementState` is a total
function and every failure path (selector resolution throwing, no element
resolved, the in-page probe returning no value or throwing) yields the
terminal state `{visible:false, enabled:false, stable:false}` — and the
ready verdict is exactly the conjunction `visible && enabled && stable`. -/
theorem checkElementState_never_throws :
    (∀ p : ElemProbes,
      (p.queryNodeId = none → checkElementState p = notFoundState) ∧
      (p.queryNodeId = some 0 → checkElementState p = notFoundState) ∧
      (p.checkEval = .err → checkElementState p = notFoundState) ∧
      (p.checkEval = .exn → checkElementState p = notFoundState) ∧
      (p.checkEval = .val none → checkElementState p = notFoundState)) ∧
    (∀ s : ElementState, isReady s = (s.visible && s.enabled && s.stable)) := by
  refine ⟨fun p => ⟨?_, ?_, ?_, ?_, ?_⟩, fun s => rfl⟩
  · intro h
    simp [checkElementState, h]
  · intro h
    simp [checkElementState, h]
  · intro h
    cases hq : p.queryNodeId with
    | none => simp [checkElementState, hq]
    | some n => by_cases h0 : n = 0 <;> simp [checkElementState, hq, h0, h]
  · intro h
    cases hq : p.queryNodeId with
    | none => simp [checkElementState, hq]
    | some n => by_cases h0 : n = 0 <;> simp [checkElementState, hq, h0, h]
  · intro h
    cases hq : p.queryNodeId with
    | none => simp [checkElementState, hq]
    | some n => by_cases h0 : n = 0 <;> simp [checkElementState, hq, h0, h]

/-- C6 witness: a probe record whose DOM query throws collapses to the
terminal not-found state. -/
theorem checkElementState_never_throws_witness :
    checkElementState
      { queryNodeId := none, checkEval := .err, stabilitySample := none } =
      notFoundState :=
  (checkElementState_never_throws.1
    { queryNodeId := none, checkEval := .err, stabilitySample := none }).1 rfl

/-- C4: `ensureConnected` with no live handle and no reconnect in flight
calls `connect()` up to 5 times with a fixed 2000 ms delay between
consecutive failed attempts: if the first success is at attempt `k ≤ 5`
it returns normally after `k` `connect()` calls and `k - 1` backoff
sleeps (so success on attempt 5 implies exactly 4 sleeps) with the
in-flight flag cleared; if all 5 attempts fail it throws the terminal
failed-to-reconnect error (`ok := false`) after 5 calls and 4 sleeps,
also with the flag cleared so a later call starts afresh. -/
theorem ensureConnected_retry_behavior :
    (∀ (oracle : Nat → Bool) (k : Nat), 1 ≤ k → k ≤ maxReconnectionRetries →
      (∀ j, j < k → oracle j = false) → oracle k = true →
      ensureConnectedSeq oracle =
        { ok := true, connectCalls := k, backoffSleeps := k - 1,
          reconnectingAfter := false }) ∧
    (∀ oracle : Nat → Bool, (∀ j, j ≤ maxReconnectionRetries → oracle j = false) →
      ensureConnectedSeq oracle =
        { ok := false, connectCalls := maxReconnectionRetries,
          backoffSleeps := maxReconnectionRetries - 1,
          reconnectingAfter := false }) ∧
    maxReconnectionRetries = 5 ∧ reconnectionRetryDelayMs = 2000 := by
  refine ⟨?_, ?_, rfl, rfl⟩
  · intro oracle k hk1 hk5 hbefore hsucc
    have h := attemptFrom_first_success (k - 1) oracle 1 k (by omega) (by omega) hk5
      (fun j _ hj => hbefore j hj) hsucc
    rw [ensureConnectedSeq, h]
    have h1 : k - 1 + 1 = k := by omega
    rw [h1]
  · intro oracle hfail
    have e6 := attemptFrom_exhausted oracle 6 (by simp [maxReconnectionRetries])
    have e5 := attemptFrom_miss oracle 5 (by simp [maxReconnectionRetries])
      (hfail 5 (by simp [maxReconnectionRetries]))
    have e4 := attemptFrom_miss oracle 4 (by simp [maxReconnectionRetries])
      (hfail 4 (by simp [maxReconnectionRetries]))
    have e3 := attemptFrom_miss oracle 3 (by simp [maxReconnectionRetries])
      (hfail 3 (by simp [maxReconnectionRetries]))
    have e2 := attemptFrom_miss oracle 2 (by simp [maxReconnectionRetries])
      (hfail 2 (by simp [maxReconnectionRetries]))
    have e1 := attemptFrom_miss oracle 1 (by simp [maxReconnectionRetries])
      (hfail 1 (by simp [maxReconnectionRetries]))
    rw [ensureConnectedSeq, e1, e2, e3, e4, e5, e6]
    simp [maxReconnectionRetries]

/-- C4 witness: `connect()` failing on attempts 1–4 and succeeding on
attempt 5 resolves after 5 calls and 4 backoff sleeps, flag cleared. -/
theorem ensureConnected_retry_behavior_witness :
    ensureConnectedSeq (fun n => n == 5) =
      { ok := true, connectCalls := 5, backoffSleeps := 4,
        reconnectingAfter := false } :=
  ensureConnected_retry_behavior.1 (fun n => n == 5) 5 (by decide)
    (by decide) (by decide) (by decide)

/-! ### Concurrency invariants for `ensureConnected` -/

theorem mutexInv_step (oracle : Nat → Bool) (s : Sys) (who : Bool)
    (h : mutexInv s) : mutexInv (sysStep oracle s who) := by
  obtain ⟨hm1, hm2⟩ := h
  cases who with
  | false =>
    cases hp : s.p0 with
    | start =>
      simp only [sysStep, hp, stepPc]
      split_ifs <;> (rw [hp] at hm1 hm2; constructor <;> simp_all [mutexInv, inSection])
    | sleeping =>
      simp only [sysStep, hp, stepPc]
      rw [hp] at hm1 hm2
      constructor <;> simp_all [mutexInv, inSection]
    | inConnect k =>
      simp only [sysStep, hp, stepPc]
      split_ifs <;> (rw [hp] at hm1 hm2; constructor <;> simp_all [mutexInv, inSection])
    | backoff k =>
      simp only [sysStep, hp, stepPc]
      rw [hp] at hm1 hm2
      constructor <;> simp_all [mutexInv, inSection]
    | doneOk =>
      simp only [sysStep, hp, stepPc]
      rw [hp] at hm1 hm2
      constructor <;> simp_all [mutexInv, inSection]
    | doneErr =>
      simp only [sysStep, hp, stepPc]
      rw [hp] at hm1 hm2
      constructor <;> simp_all [mutexInv, inSection]
  | true =>
    cases hp : s.p1 with
    | start =>
      simp only [sysStep, hp, stepPc]
      split_ifs <;> (rw [hp] at hm1 hm2; constructor <;> simp_all [mutexInv, inSection])
    | sleeping =>
      simp only [sysStep, hp, stepPc]
      rw [hp] at hm1 hm2
      constructor <;> simp_all [mutexInv, inSection]
    | inConnect k =>
      simp only [sysStep, hp, stepPc]
      split_ifs <;> (rw [hp] at hm1 hm2; constructor <;> simp_all [mutexInv, inSection])
    | backoff k =>
      simp only [sysStep, hp, stepPc]
      rw [hp] at hm1 hm2
      constructor <;> simp_all [mutexInv, inSection]
    | doneOk =>
      simp only [sysStep, hp, stepPc]
      rw [hp] at hm1 hm2
      constructor <;> simp_all [mutexInv, inSection]
    | doneErr =>
      simp only [sysStep, hp, stepPc]
      rw [hp] at hm1 hm2
      constructor <;> simp_all [mutexInv, inSection]

theorem mutexInv_run (oracle : Nat → Bool) (sched : List Bool) :
    ∀ s : Sys, mutexInv s → mutexInv (sysRun oracle sched s) := by
  induction sched with
  | nil => intro s h; exact h
  | cons a t ih =>
    intro s h
    exact ih (sysStep oracle s a) (mutexInv_step oracle s a h)

theorem succInv_step (oracle : Nat → Bool) (hsucc : ∀ n, oracle n = true)
    (s : Sys) (who : Bool) (h : succInv s) : succInv (sysStep oracle s who) := by
  obtain ⟨⟨hm1, hm2⟩, hc1, hc0, hb0, hb1⟩ := h
  cases who with
  | false =>
    cases hp : s.p0 with
    | start =>
      simp only [sysStep, hp, stepPc]
      rw [hp] at hm1 hm2
      split_ifs with hcl hrec
      · exact ⟨⟨by simp_all [inSection], by simp_all [inSection]⟩,
          hc1, by simp_all [inSection], by simp, hb1⟩
      · refine ⟨⟨by simp_all [inSection], by simp_all [inSection]⟩,
          hc1, ?_, by simp, hb1⟩
        intro hx
        have hq : inSection s.p1 = true := by simp_all [inSection]
        simp_all
      · have hq : inSection s.p1 = false := by simp_all [inSection]
        have hz : s.connects = 0 := hc0 ⟨by simp_all, by simp [hp, inSection], hq⟩
        refine ⟨⟨by simp_all [inSection], by simp_all [inSection]⟩,
          ?_, by simp [inSection], by simp, hb1⟩
        show s.connects + 1 ≤ 1
        omega
    | sleeping =>
      simp only [sysStep, hp, stepPc]
      rw [hp] at hm1 hm2
      exact ⟨⟨by simp_all [inSection], by simp_all [inSection]⟩,
        hc1, by simp_all [inSection], by simp, hb1⟩
    | inConnect k =>
      simp only [sysStep, hp, stepPc, hsucc, if_pos]
      rw [hp] at hm1 hm2
      exact ⟨⟨by simp_all [inSection], by simp_all [inSection]⟩,
        hc1, by simp_all [inSection], by simp, hb1⟩
    | backoff k => exact absurd hp (hb0 k)
    | doneOk =>
      simp only [sysStep, hp, stepPc]
      rw [hp] at hm1 hm2
      exact ⟨⟨by simp_all [inSection], by simp_all [inSection]⟩,
        hc1, by simp_all [inSection], by simp, hb1⟩
    | doneErr =>
      simp only [sysStep, hp, stepPc]
      rw [hp] at hm1 hm2
      exact ⟨⟨by simp_all [inSection], by simp_all [inSection]⟩,
        hc1, by simp_all [inSection], by simp, hb1⟩
  | true =>
    cases hp : s.p1 with
    | start =>
      simp only [sysStep, hp, stepPc]
      rw [hp] at hm1 hm2
      split_ifs with hcl hrec
      · exact ⟨⟨by simp_all [inSection], by simp_all [inSection]⟩,
          hc1, by simp_all [inSection], hb0, by simp⟩
      · refine ⟨⟨by simp_all [inSection], by simp_all [inSection]⟩,
          hc1, ?_, hb0, by simp⟩
        intro hx
        have hq : inSection s.p0 = true := by simp_all [inSection]
        simp_all
      · have hq : inSection s.p0 = false := by simp_all [inSection]
        have hz : s.connects = 0 := hc0 ⟨by simp_all, hq, by simp [hp, inSection]⟩
        refine ⟨⟨by simp_all [inSection], by simp_all [inSection]⟩,
          ?_, by simp [inSection], hb0, by simp⟩
        show s.connects + 1 ≤ 1
        omega
    | sleeping =>
      simp only [sysStep, hp, stepPc]
      rw [hp] at hm1 hm2
      exact ⟨⟨by simp_all [inSection], by simp_all [inSection]⟩,
        hc1, by simp_all [inSection], hb0, by simp⟩
    | inConnect k =>
      simp only [sysStep, hp, stepPc, hsucc, if_pos]
      rw [hp] at hm1 hm2
      exact ⟨⟨by simp_all [inSection], by simp_all [inSection]⟩,
        hc1, by simp_all [inSection], hb0, by simp⟩
    | backoff k => exact absurd hp (hb1 k)
    | doneOk =>
      simp only [sysStep, hp, stepPc]
      rw [hp] at hm1 hm2
      exact ⟨⟨by simp_all [inSection], by simp_all [inSection]⟩,
        hc1, by simp_all [inSection], hb0, by simp⟩
    | doneErr =>
      simp only [sysStep, hp, stepPc]
      rw [hp] at hm1 hm2
      exact ⟨⟨by simp_all [inSection], by simp_all [inSection]⟩,
        hc1, by simp_all [inSection], hb0, by simp⟩

theorem succInv_run (oracle : Nat → Bool) (hsucc : ∀ n, oracle n = true)
    (sched : List Bool) :
    ∀ s : Sys, succInv s → succInv (sysRun oracle sched s) := by
  induction sched with
  | nil => intro s h; exact h
  | cons a t ih =>
    intro s h
    exact ih (sysStep oracle s a) (succInv_step oracle hsucc s a h)

/-- C2 counterexample: with two concurrent `ensureConnected()` callers
after a single disconnect event and every `connect()` failing, there is
an interleaving under which `connect()` is invoked 10 times in total —
more than the claimed bound of 5. -/
theorem ensureConnected_ten_connects_cex :
    (sysRun (fun _ => false) c2CexSched initSys).connects = 10 ∧
    ¬(sysRun (fun _ => false) c2CexSched initSys).connects ≤
        maxReconnectionRetries := by
  constructor <;> decide

/-- C2 (amended): concurrent `ensureConnected()` callers never run
overlapping `connect()` attempt sequences — under every interleaving at
most one caller is inside the attempt loop at any instant, and the shared
in-flight flag is set exactly while one is — and whenever `connect()`
invocations succeed, at most 5 `connect()` calls occur in total across
all concurrent callers for one disconnect event.  (Only after an in-flight
sequence exhausts all 5 attempts and fails may a waiting caller start a
fresh sequence, so the total can exceed 5 across **successive** failed
sequences, never via parallel ones.) -/
theorem ensureConnected_single_flight :
    (∀ (oracle : Nat → Bool) (sched : List Bool),
      mutexInv (sysRun oracle sched initSys)) ∧
    (∀ (oracle : Nat → Bool) (sched : List Bool), (∀ n, oracle n = true) →
      (sysRun oracle sched initSys).connects ≤ maxReconnectionRetries) := by
  constructor
  · intro oracle sched
    exact mutexInv_run oracle sched initSys ⟨rfl, rfl⟩
  · intro oracle sched hsucc
    have h := succInv_run oracle hsucc sched initSys
      ⟨⟨rfl, rfl⟩, by simp [initSys], fun _ => rfl,
        fun k => by simp [initSys], fun k => by simp [initSys]⟩
    have h2 := h.2.1
    simp only [maxReconnectionRetries]
    omega

/-- C2 witness: a concrete interleaving of two callers with `connect()`
always succeeding stays within the 5-call bound. -/
theorem ensureConnected_single_flight_witness :
    (sysRun (fun _ => true) [false, true, false, true] initSys).connects ≤
      maxReconnectionRetries :=
  ensureConnected_single_flight.2 (fun _ => true) [false, true, false, true]
    (fun _ => rfl)

/-! ### Per-check lemmas for the `waitFor` poll iteration -/

theorem checkElement_fields (drv : WaitDriver) (o : WaitOptions) (i : Nat)
    (c : WaitConditions) :
    (checkElement drv o i c).1.text = c.text ∧
    (checkElement drv o i c).1.url = c.url ∧
    (checkElement drv o i c).1.networkIdle = c.networkIdle ∧
    (c.element = some true → (checkElement drv o i c).1.element = some true) ∧
    (checkElement drv o i c).2 =
      (if strTruthy o.element = true then
        (if c.element = some true then [] else [DriverEvent.domQuery]) else []) := by
  simp only [checkElement]
  split_ifs <;> simp_all

theorem checkElement_shape (drv : WaitDriver) (o : WaitOptions) (i : Nat)
    (c : WaitConditions) (h : condShape o c) :
    condShape o (checkElement drv o i c).1 := by
  obtain ⟨h1, h2, h3, h4⟩ := h
  simp only [checkElement]
  split_ifs <;> simp_all [condShape]

theorem checkText_ok (drv : WaitDriver) (o : WaitOptions) (i : Nat)
    (c : WaitConditions) :
    (∀ c2, (checkText drv o i c).1 = Except.ok c2 →
      c2.element = c.element ∧ c2.url = c.url ∧ c2.networkIdle = c.networkIdle ∧
      (c.text = some true → c2.text = some true) ∧
      (condShape o c → condShape o c2)) ∧
    (checkText drv o i c).2 =
      (if strTruthy o.text = true then
        (if c.text = some true then [] else [DriverEvent.textEval]) else []) := by
  constructor
  · intro c2 hok
    simp only [checkText] at hok
    split_ifs at hok with ht htr
    · injection hok with hok
      subst hok
      exact ⟨rfl, rfl, rfl, fun _ => htr, fun hs => hs⟩
    · cases htp : drv.textProbe i with
      | err => rw [htp] at hok; cases hok
      | exn => rw [htp] at hok; cases hok
      | val found =>
        rw [htp] at hok
        injection hok with hok
        subst hok
        cases found <;> simp_all [condShape]
    · injection hok with hok
      subst hok
      exact ⟨rfl, rfl, rfl, fun hx => hx, fun hs => hs⟩
  · simp only [checkText]
    split_ifs <;> first
      | rfl
      | (cases htp : drv.textProbe i <;> simp [htp])

theorem checkUrl_ok (drv : WaitDriver) (u : String → String → Bool)
    (o : WaitOptions) (i : Nat) (c : WaitConditions) :
    (∀ c2, (checkUrl drv u o i c).1 = Except.ok c2 →
      c2.element = c.element ∧ c2.text = c.text ∧ c2.networkIdle = c.networkIdle ∧
      (c.url = some true → c2.url = some true) ∧
      (condShape o c → condShape o c2)) ∧
    (checkUrl drv u o i c).2 =
      (if strTruthy o.url = true then
        (if c.url = some true then [] else [DriverEvent.urlEval]) else []) := by
  constructor
  · intro c2 hok
    simp only [checkUrl] at hok
    split_ifs at hok with ht htr
    · injection hok with hok
      subst hok
      exact ⟨rfl, rfl, rfl, fun _ => htr, fun hs => hs⟩
    · cases hup : drv.urlProbe i with
      | none => rw [hup] at hok; cases hok
      | some uv =>
        rw [hup] at hok
        injection hok with hok
        subst hok
        by_cases hm : u (o.url.getD "") uv = true <;>
          simp_all [condShape]
    · injection hok with hok
      subst hok
      exact ⟨rfl, rfl, rfl, fun hx => hx, fun hs => hs⟩
  · simp only [checkUrl]
    split_ifs <;> first
      | rfl
      | (cases hup : drv.urlProbe i <;> simp [hup])

theorem checkNetworkIdle_fields (drv : WaitDriver) (o : WaitOptions) (i : Nat)
    (c : WaitConditions) :
    (checkNetworkIdle drv o i c).element = c.element ∧
    (checkNetworkIdle drv o i c).text = c.text ∧
    (checkNetworkIdle drv o i c).url = c.url ∧
    (c.networkIdle = some true →
      (checkNetworkIdle drv o i c).networkIdle = some true) ∧
    (condShape o c → condShape o (checkNetworkIdle drv o i c)) := by
  simp only [checkNetworkIdle]
  split_ifs <;> simp_all [condShape]

theorem stepConds_ok (drv : WaitDriver) (u : String → String → Bool)
    (o : WaitOptions) (i : Nat) (c : WaitConditions) :
    ∀ c2 ev, stepConds drv u o i c = (Except.ok c2, ev) →
      (c.element = some true → c2.element = some true) ∧
      (c.text = some true → c2.text = some true) ∧
      (c.url = some true → c2.url = some true) ∧
      (c.networkIdle = some true → c2.networkIdle = some true) ∧
      (condShape o c → condShape o c2) ∧
      ev = (if strTruthy o.element = true then
              (if c.element = some true then [] else [DriverEvent.domQuery]) else []) ++
           (if strTruthy o.text = true then
              (if c.text = some true then [] else [DriverEvent.textEval]) else []) ++
           (if strTruthy o.url = true then
              (if c.url = some true then [] else [DriverEvent.urlEval]) else []) := by
  intro c2 ev h
  rcases hce : checkElement drv o i c with ⟨c1, ev1⟩
  obtain ⟨he1, he2, he3, he4, he5⟩ := checkElement_fields drv o i c
  rw [hce] at he1 he2 he3 he4 he5
  dsimp only at he1 he2 he3 he4 he5
  have hceShape := checkElement_shape drv o i c
  rw [hce] at hceShape
  dsimp only at hceShape
  simp only [stepConds] at h
  rw [hce] at h
  dsimp only at h
  rcases hct : checkText drv o i c1 with ⟨rt, ev2⟩
  obtain ⟨hctOk, hctTr⟩ := checkText_ok drv o i c1
  rw [hct] at hctOk hctTr h
  dsimp only at hctOk hctTr h
  cases rt with
  | error er => simp at h
  | ok ct =>
    dsimp only at h
    rcases hcu : checkUrl drv u o i ct with ⟨ru, ev3⟩
    obtain ⟨hcuOk, hcuTr⟩ := checkUrl_ok drv u o i ct
    rw [hcu] at hcuOk hcuTr h
    dsimp only at hcuOk hcuTr h
    cases ru with
    | error er => simp at h
    | ok cu =>
      dsimp only at h
      simp only [Prod.mk.injEq, Except.ok.injEq] at h
      obtain ⟨hc2, hev⟩ := h
      obtain ⟨hq1, hq2, hq3, hq4, hq5⟩ := hctOk ct rfl
      obtain ⟨hr1, hr2, hr3, hr4, hr5⟩ := hcuOk cu rfl
      obtain ⟨hn1, hn2, hn3, hn4, hn5⟩ := checkNetworkIdle_fields drv o i cu
      subst hc2
      refine ⟨?_, ?_, ?_, ?_, ?_, ?_⟩
      · intro hx
        rw [hn1, hr1, hq1]
        exact he4 hx
      · intro hx
        rw [hn2, hr2]
        exact hq4 (he1 ▸ hx)
      · intro hx
        rw [hn3]
        exact hr4 (hq2 ▸ he2 ▸ hx)
      · intro hx
        apply hn4
        rw [hr3, hq3, he3]
        exact hx
      · intro hs
        exact hn5 (hr5 (hq5 (hceShape hs)))
      · rw [← hev, he5, hctTr, hcuTr, he1, hq2, he2]

theorem stepConds_events (drv : WaitDriver) (u : String → String → Bool)
    (o : WaitOptions) (i : Nat) (c : WaitConditions) :
    ∀ e ∈ (stepConds drv u o i c).2,
      e = DriverEvent.domQuery ∨ e = DriverEvent.textEval ∨
        e = DriverEvent.urlEval := by
  intro e he
  rcases hce : checkElement drv o i c with ⟨c1, ev1⟩
  obtain ⟨_, _, _, _, he5⟩ := checkElement_fields drv o i c
  rw [hce] at he5
  dsimp only at he5
  simp only [stepConds] at he
  rw [hce] at he
  dsimp only at he
  rcases hct : checkText drv o i c1 with ⟨rt, ev2⟩
  obtain ⟨_, hctTr⟩ := checkText_ok drv o i c1
  rw [hct] at hctTr he
  dsimp only at hctTr he
  have hm1 : ∀ x ∈ ev1, x = DriverEvent.domQuery := by
    intro x hx
    rw [he5] at hx
    split_ifs at hx <;> simp at hx <;> exact hx
  have hm2 : ∀ x ∈ ev2, x = DriverEvent.textEval := by
    intro x hx
    rw [hctTr] at hx
    split_ifs at hx <;> simp at hx <;> exact hx
  cases rt with
  | error er =>
    dsimp only at he
    rcases List.mem_append.1 he with hx | hx
    · exact Or.inl (hm1 e hx)
    · exact Or.inr (Or.inl (hm2 e hx))
  | ok ct =>
    dsimp only at he
    rcases hcu : checkUrl drv u o i ct with ⟨ru, ev3⟩
    obtain ⟨_, hcuTr⟩ := checkUrl_ok drv u o i ct
    rw [hcu] at hcuTr he
    dsimp only at hcuTr he
    have hm3 : ∀ x ∈ ev3, x = DriverEvent.urlEval := by
      intro x hx
      rw [hcuTr] at hx
      split_ifs at hx <;> simp at hx <;> exact hx
    cases ru with
    | error er =>
      dsimp only at he
      rcases List.mem_append.1 he with hx | hx
      · rcases List.mem_append.1 hx with hy | hy
        · exact Or.inl (hm1 e hy)
        · exact Or.inr (Or.inl (hm2 e hy))
      · exact Or.inr (Or.inr (hm3 e hx))
    | ok cu =>
      dsimp only at he
      rcases List.mem_append.1 he with hx | hx
      · rcases List.mem_append.1 hx with hy | hy
        · exact Or.inl (hm1 e hy)
        · exact Or.inr (Or.inl (hm2 e hy))
      · exact Or.inr (Or.inr (hm3 e hx))

theorem stepConds_benign (drv : WaitDriver) (u : String → String → Bool)
    (o : WaitOptions) (i : Nat) (c : WaitConditions)
    (ht1 : drv.textProbe i ≠ .err) (ht2 : drv.textProbe i ≠ .exn)
    (hu : (drv.urlProbe i).isSome = true) :
    ∃ c2 ev, stepConds drv u o i c = (Except.ok c2, ev) := by
  rcases hce : checkElement drv o i c with ⟨c1, ev1⟩
  have hct : ∃ ct ev2, checkText drv o i c1 = (Except.ok ct, ev2) := by
    simp only [checkText]
    split_ifs
    · exact ⟨c1, [], rfl⟩
    · cases htp : drv.textProbe i with
      | err => exact absurd htp ht1
      | exn => exact absurd htp ht2
      | val found => exact ⟨_, _, rfl⟩
    · exact ⟨c1, [], rfl⟩
  obtain ⟨ct, ev2, hct⟩ := hct
  have hcu : ∃ cu ev3, checkUrl drv u o i ct = (Except.ok cu, ev3) := by
    simp only [checkUrl]
    split_ifs
    · exact ⟨ct, [], rfl⟩
    · obtain ⟨uv, hup⟩ := Option.isSome_iff_exists.1 hu
      rw [hup]
      exact ⟨_, _, rfl⟩
    · exact ⟨ct, [], rfl⟩
  obtain ⟨cu, ev3, hcu⟩ := hcu
  refine ⟨checkNetworkIdle drv o i cu, ev1 ++ ev2 ++ ev3, ?_⟩
  simp only [stepConds]
  rw [hce]
  dsimp only
  rw [hct]
  dsimp only
  rw [hcu]

/-! ### Poll-loop lemmas -/

theorem waitLoop_events (drv : WaitDriver) (u : String → String → Bool)
    (o : WaitOptions) (timeout : Nat) :
    ∀ (n i : Nat) (c : WaitConditions), timeout - i * waitCheckIntervalMs ≤ n →
      ∀ e ∈ (waitLoop drv u o timeout i c).2,
        e = DriverEvent.domQuery ∨ e = DriverEvent.textEval ∨
          e = DriverEvent.urlEval := by
  intro n
  induction n with
  | zero =>
    intro i c hn e he
    rw [waitLoop, dif_neg (by omega)] at he
    simp at he
  | succ n ih =>
    intro i c hn e he
    by_cases hg : i * waitCheckIntervalMs < timeout
    · rw [waitLoop, dif_pos hg] at he
      dsimp only at he
      rcases hsc : stepConds drv u o i c with ⟨r, ev⟩
      rw [hsc] at he
      dsimp only at he
      have hstep : ∀ x ∈ ev, x = DriverEvent.domQuery ∨ x = DriverEvent.textEval ∨
          x = DriverEvent.urlEval := by
        intro x hx
        apply stepConds_events drv u o i c x
        rw [hsc]
        exact hx
      cases r with
      | error er =>
        dsimp only at he
        exact hstep e he
      | ok c1 =>
        dsimp only at he
        by_cases ham : allConditionsMet c1 = true
        · rw [if_pos ham] at he
          exact hstep e he
        · rw [if_neg ham] at he
          dsimp only at he
          rcases List.mem_append.1 he with hx | hx
          · exact hstep e hx
          · refine ih (i + 1) c1 ?_ e hx
            have hpos : 0 < waitCheckIntervalMs := by
              simp [waitCheckIntervalMs]
            have : i * waitCheckIntervalMs + waitCheckIntervalMs =
                (i + 1) * waitCheckIntervalMs := by ring
            omega
    · rw [waitLoop, dif_neg hg] at he
      simp at he

theorem waitLoop_ok (drv : WaitDriver) (u : String → String → Bool)
    (o : WaitOptions) (timeout : Nat) :
    ∀ (n i : Nat) (c : WaitConditions), timeout - i * waitCheckIntervalMs ≤ n →
      ∀ s c2 t ev, waitLoop drv u o timeout i c = (Except.ok (s, c2, t), ev) →
        (condShape o c → condShape o c2) ∧
        (i * waitCheckIntervalMs < timeout → s = allConditionsMet c2) := by
  intro n
  induction n with
  | zero =>
    intro i c hn s c2 t ev h
    rw [waitLoop, dif_neg (by omega)] at h
    simp only [Prod.mk.injEq, Except.ok.injEq] at h
    obtain ⟨⟨hs, hc, _⟩, _⟩ := h
    subst hs
    subst hc
    exact ⟨fun hx => hx, fun hx => absurd hx (by omega)⟩
  | succ n ih =>
    intro i c hn s c2 t ev h
    by_cases hg : i * waitCheckIntervalMs < timeout
    · rw [waitLoop, dif_pos hg] at h
      dsimp only at h
      rcases hsc : stepConds drv u o i c with ⟨r, ev0⟩
      rw [hsc] at h
      dsimp only at h
      cases r with
      | error er => simp at h
      | ok c1 =>
        dsimp only at h
        have hstep := stepConds_ok drv u o i c c1 ev0 hsc
        by_cases ham : allConditionsMet c1 = true
        · rw [if_pos ham] at h
          simp only [Prod.mk.injEq, Except.ok.injEq] at h
          obtain ⟨⟨hs, hc, _⟩, _⟩ := h
          subst hs
          subst hc
          exact ⟨fun hx => hstep.2.2.2.2.1 hx, fun _ => ham.symm⟩
        · rw [if_neg ham] at h
          try dsimp only at h
          rcases hrest : waitLoop drv u o timeout (i + 1) c1 with ⟨r2, ev2⟩
          rw [hrest] at h
          try dsimp only at h
          simp only [Prod.mk.injEq] at h
          obtain ⟨hr2, _⟩ := h
          subst hr2
          have hn2 : timeout - (i + 1) * waitCheckIntervalMs ≤ n := by
            have hpos : 0 < waitCheckIntervalMs := by
              simp [waitCheckIntervalMs]
            have : i * waitCheckIntervalMs + waitCheckIntervalMs =
                (i + 1) * waitCheckIntervalMs := by ring
            omega
          have hih := ih (i + 1) c1 hn2 s c2 t ev2 hrest
          refine ⟨fun hx => hih.1 (hstep.2.2.2.2.1 hx), fun _ => ?_⟩
          by_cases hg2 : (i + 1) * waitCheckIntervalMs < timeout
          · exact hih.2 hg2
          · rw [waitLoop, dif_neg hg2] at hrest
            simp only [Prod.mk.injEq, Except.ok.injEq] at hrest
            obtain ⟨⟨hs, hc, _⟩, _⟩ := hrest
            subst hs
            subst hc
            simp [ham]
    · rw [waitLoop, dif_neg hg] at h
      simp only [Prod.mk.injEq, Except.ok.injEq] at h
      obtain ⟨⟨hs, hc, _⟩, _⟩ := h
      subst hs
      subst hc
      exact ⟨fun hx => hx, fun hx => absurd hx hg⟩

theorem waitLoop_benign (drv : WaitDriver) (u : String → String → Bool)
    (o : WaitOptions) (timeout : Nat)
    (ht1 : ∀ j, drv.textProbe j ≠ .err) (ht2 : ∀ j, drv.textProbe j ≠ .exn)
    (hu : ∀ j, (drv.urlProbe j).isSome = true) :
    ∀ (n i : Nat) (c : WaitConditions), timeout - i * waitCheckIntervalMs ≤ n →
      ∃ s c2 t ev, waitLoop drv u o timeout i c = (Except.ok (s, c2, t), ev) := by
  intro n
  induction n with
  | zero =>
    intro i c hn
    refine ⟨false, c, i * waitCheckIntervalMs, [], ?_⟩
    rw [waitLoop, dif_neg (by omega)]
  | succ n ih =>
    intro i c hn
    by_cases hg : i * waitCheckIntervalMs < timeout
    · obtain ⟨c1, ev0, hsc⟩ :=
        stepConds_benign drv u o i c (ht1 i) (ht2 i) (hu i)
      by_cases ham : allConditionsMet c1 = true
      · refine ⟨true, c1, i * waitCheckIntervalMs, ev0, ?_⟩
        rw [waitLoop, dif_pos hg]
        try dsimp only
        rw [hsc]
        try dsimp only
        rw [if_pos ham]
      · have hn2 : timeout - (i + 1) * waitCheckIntervalMs ≤ n := by
          have hpos : 0 < waitCheckIntervalMs := by
            simp [waitCheckIntervalMs]
          have : i * waitCheckIntervalMs + waitCheckIntervalMs =
              (i + 1) * waitCheckIntervalMs := by ring
          omega
        obtain ⟨s, c2, t, ev2, hrest⟩ := ih (i + 1) c1 hn2
        refine ⟨s, c2, t, ev0 ++ ev2, ?_⟩
        rw [waitLoop, dif_pos hg]
        try dsimp only
        rw [hsc]
        try dsimp only
        rw [if_neg ham, hrest]
    · refine ⟨false, c, i * waitCheckIntervalMs, [], ?_⟩
      rw [waitLoop, dif_neg hg]

theorem getActualState_events (drv : WaitDriver) (o : WaitOptions) :
    ∀ e ∈ (getActualState drv o).2,
      e = DriverEvent.domQuery ∨ e = DriverEvent.textEval ∨
        e = DriverEvent.urlEval := by
  intro e he
  simp only [getActualState] at he
  cases hf : drv.finalUrl with
  | none =>
    rw [hf] at he
    simp at he
    simp [he]
  | some urlv =>
    rw [hf] at he
    dsimp only at he
    cases hft : drv.finalTextProbe <;>
      rw [hft] at he <;> split_ifs at he <;> simp at he <;> tauto

theorem getActualState_benign (drv : WaitDriver) (o : WaitOptions)
    (hf : drv.finalUrl.isSome = true) (hft : drv.finalTextProbe ≠ .err) :
    isOkE (getActualState drv o).1 = true := by
  obtain ⟨urlv, hu⟩ := Option.isSome_iff_exists.1 hf
  simp only [getActualState]
  rw [hu]
  dsimp only
  split_ifs <;>
    first
      | rfl
      | (cases hftp : drv.finalTextProbe with
         | err => exact absurd hftp hft
         | exn => simp [hftp, isOkE]
         | val found => simp [hftp, isOkE])

theorem effectiveTimeout_pos (t : Option Nat) : 0 < effectiveTimeout t := by
  cases t with
  | none => decide
  | some v =>
    simp only [effectiveTimeout, Nat.min_def, defaultWaitTimeoutMs,
      maxWaitTimeoutMs]
    split_ifs <;> omega

theorem waitBody_events (drv : WaitDriver) (u : String → String → Bool)
    (o : WaitOptions) (timeout : Nat) (c0 : WaitConditions) :
    ∀ e ∈ (waitBody drv u o timeout c0).2,
      e = DriverEvent.domQuery ∨ e = DriverEvent.textEval ∨
        e = DriverEvent.urlEval := by
  intro e he
  simp only [waitBody] at he
  rcases hwl : waitLoop drv u o timeout 0 c0 with ⟨r, ev⟩
  rw [hwl] at he
  dsimp only at he
  have hloop : ∀ x ∈ ev, x = DriverEvent.domQuery ∨ x = DriverEvent.textEval ∨
      x = DriverEvent.urlEval := by
    intro x hx
    apply waitLoop_events drv u o timeout timeout 0 c0 (by omega) x
    rw [hwl]
    exact hx
  cases r with
  | error er => exact hloop e he
  | ok v =>
    dsimp only at he
    rcases hgas : getActualState drv o with ⟨g, ev2⟩
    rw [hgas] at he
    dsimp only at he
    have hg2 : ∀ x ∈ ev2, x = DriverEvent.domQuery ∨ x = DriverEvent.textEval ∨
        x = DriverEvent.urlEval := by
      intro x hx
      apply getActualState_events drv o x
      rw [hgas]
      exact hx
    cases g with
    | error er =>
      rcases List.mem_append.1 he with hx | hx
      · exact hloop e hx
      · exact hg2 e hx
    | ok st =>
      rcases List.mem_append.1 he with hx | hx
      · exact hloop e hx
      · exact hg2 e hx

theorem waitBody_no_network_events (drv : WaitDriver) (u : String → String → Bool)
    (o : WaitOptions) (timeout : Nat) (c0 : WaitConditions)
    (ev : DriverEvent)
    (hne : ev = DriverEvent.networkEnable ∨ ev = DriverEvent.networkDisable ∨
      ev = DriverEvent.cbRequestWillBeSent ∨ ev = DriverEvent.cbLoadingFinished ∨
      ev = DriverEvent.cbRemoved) :
    (waitBody drv u o timeout c0).2.count ev = 0 := by
  rw [List.count_eq_zero]
  intro hmem
  rcases waitBody_events drv u o timeout c0 ev hmem with h | h | h <;>
    rcases hne with h2 | h2 | h2 | h2 | h2 <;> (rw [h2] at h; cases h)

/-- C1: for every call to `waitFor` whose options include `networkIdle`,
`Network.disable` is invoked exactly once when the call returns, on every
exit path alike — the universal quantification over driver oracles covers
normal success, timeout, and every exception path — and for calls without
`networkIdle` it is never invoked. -/
theorem waitFor_disables_network_exactly_once (drv : WaitDriver)
    (u : String → String → Bool) (o : WaitOptions) :
    (waitFor drv u o).2.count DriverEvent.networkDisable =
      (if o.networkIdle.isSome then 1 else 0) := by
  simp only [waitFor]
  by_cases hni : o.networkIdle.isSome = true
  · rw [if_pos hni, if_pos hni, if_pos hni]
    by_cases hen : drv.networkEnableOk = true
    · rw [if_pos hen]
      try dsimp only
      rw [List.count_append, List.count_append,
        waitBody_no_network_events drv u o _ _ _ (Or.inr (Or.inl rfl))]
      decide
    · rw [if_neg hen]
      try dsimp only
      rw [List.count_append]
      decide
  · rw [if_neg hni, if_neg hni, if_neg hni]
    try dsimp only
    rw [List.count_append,
      waitBody_no_network_events drv u o _ _ _ (Or.inr (Or.inl rfl))]
    decide

/-- C9: a `waitFor` call with `networkIdle` (whose `Network.enable`
succeeds) registers exactly one fresh `requestWillBeSent` and one fresh
`loadingFinished` callback on the shared client, never removes any
callback, and its cleanup consists of exactly one `Network.disable` — so
the set of callbacks registered on the client grows by two per such call
and only event delivery is switched off. -/
theorem waitFor_registers_two_callbacks (drv : WaitDriver)
    (u : String → String → Bool) (o : WaitOptions)
    (hni : o.networkIdle.isSome = true) (hen : drv.networkEnableOk = true) :
    (waitFor drv u o).2.count DriverEvent.cbRequestWillBeSent = 1 ∧
    (waitFor drv u o).2.count DriverEvent.cbLoadingFinished = 1 ∧
    (waitFor drv u o).2.count DriverEvent.cbRemoved = 0 ∧
    (waitFor drv u o).2.count DriverEvent.networkDisable = 1 := by
  simp only [waitFor]
  rw [if_pos hni, if_pos hni, if_pos hen]
  dsimp only
  refine ⟨?_, ?_, ?_, ?_⟩ <;>
    · rw [List.count_append, List.count_append,
        waitBody_no_network_events drv u o _ _ _ (by simp)]
      decide

theorem waitBody_benign (drv : WaitDriver) (u : String → String → Bool)
    (o : WaitOptions) (timeout : Nat) (c0 : WaitConditions)
    (ht1 : ∀ j, drv.textProbe j ≠ .err) (ht2 : ∀ j, drv.textProbe j ≠ .exn)
    (hu : ∀ j, (drv.urlProbe j).isSome = true)
    (hf : drv.finalUrl.isSome = true) (hft : drv.finalTextProbe ≠ .err) :
    isOkE (waitBody drv u o timeout c0).1 = true := by
  obtain ⟨s, c2, t, ev, hwl⟩ :=
    waitLoop_benign drv u o timeout ht1 ht2 hu timeout 0 c0 (by omega)
  simp only [waitBody]
  rw [hwl]
  dsimp only
  have hgas := getActualState_benign drv o hf hft
  rcases hg : getActualState drv o with ⟨g, ev2⟩
  rw [hg] at hgas
  dsimp only at hgas
  cases g with
  | error er => simp [isOkE] at hgas
  | ok st => rfl

/-- C3 (amended): within the `waitFor` poll loop, a DOM-query failure in
the element probe is swallowed — the element condition is merely marked
unsatisfied and polling continues until the deadline, so a call whose
text/URL probes and final read pass are healthy always returns a normal
`WaitOutcome`, whatever the element probe does.  A script-evaluation
exception during the text check, however, is not treated this way: it
ends the loop immediately by raising a `Script execution failed` error
(wrapped by the catch block) to the caller. -/
theorem waitFor_probe_failure_policy :
    (∀ (drv : WaitDriver) (u : String → String → Bool) (o : WaitOptions),
      (∀ j, drv.textProbe j ≠ .err) → (∀ j, drv.textProbe j ≠ .exn) →
      (∀ j, (drv.urlProbe j).isSome = true) →
      drv.networkEnableOk = true → drv.finalUrl.isSome = true →
      drv.finalTextProbe ≠ .err →
      isOkE (waitFor drv u o).1 = true) ∧
    (∀ (drv : WaitDriver) (u : String → String → Bool) (o : WaitOptions)
        (i : Nat) (c : WaitConditions),
      strTruthy o.text = true → c.text ≠ some true → drv.textProbe i = .exn →
      (stepConds drv u o i c).1 = Except.error .scriptExecutionFailed) := by
  constructor
  · intro drv u o ht1 ht2 hu hen hf hft
    have hb := waitBody_benign drv u o (effectiveTimeout o.timeout)
      (initConditions o) ht1 ht2 hu hf hft
    simp only [waitFor]
    rcases hwb : waitBody drv u o (effectiveTimeout o.timeout)
        (initConditions o) with ⟨rb, evb⟩
    rw [hwb] at hb
    dsimp only at hb
    by_cases hni : o.networkIdle.isSome = true
    · rw [if_pos hni, if_pos hen]
      cases rb with
      | error er => simp [isOkE] at hb
      | ok r => rfl
    · rw [if_neg hni]
      cases rb with
      | error er => simp [isOkE] at hb
      | ok r => rfl
  · intro drv u o i c htx hcf htp
    simp only [stepConds]
    rcases hce : checkElement drv o i c with ⟨c1, ev1⟩
    obtain ⟨he1, _, _, _, _⟩ := checkElement_fields drv o i c
    rw [hce] at he1
    dsimp only at he1
    dsimp only
    have hct : (checkText drv o i c1).1 = Except.error .scriptExecutionFailed := by
      simp only [checkText]
      rw [if_pos htx, if_neg (by rw [he1]; exact hcf), htp]
    rcases hctp : checkText drv o i c1 with ⟨rt, ev2⟩
    rw [hctp] at hct
    dsimp only at hct
    dsimp only
    rw [hct]

/-- C3 witness: a run whose element probe throws on every poll but whose
text/URL probes are healthy still returns a normal outcome, and a text
probe evaluating with `exceptionDetails` makes the iteration abort with
the script-execution error. -/
theorem waitFor_probe_failure_policy_witness :
    isOkE (waitFor
      { networkEnableOk := true,
        elementProbe := fun _ => none,
        textProbe := fun _ => .val false,
        urlProbe := fun _ => some "u",
        lastNetworkActivity := fun _ => 0,
        finalUrl := some "u",
        finalElementProbe := none,
        finalTextProbe := .val false }
      urlTestNever (optsElementOnly "#btn")).1 = true ∧
    (stepConds drvTextExn urlTestNever (optsTextOnly "x" 1000) 0
        (initConditions (optsTextOnly "x" 1000))).1 =
      Except.error .scriptExecutionFailed :=
  ⟨waitFor_probe_failure_policy.1 _ urlTestNever (optsElementOnly "#btn")
      (fun _ => by simp) (fun _ => by simp) (fun _ => rfl) rfl rfl (by simp),
   waitFor_probe_failure_policy.2 drvTextExn urlTestNever
      (optsTextOnly "x" 1000) 0 (initConditions (optsTextOnly "x" 1000))
      (by decide) (by decide) rfl⟩

/-- C3 counterexample: a single transient probe failure — the in-page
text script of the very first poll iteration evaluating with an exception
— ends the `waitFor` loop by raising an error to the caller instead of
being treated as "condition not yet satisfied". -/
theorem waitFor_text_exception_propagates_cex :
    (waitFor drvTextExn urlTestNever (optsTextOnly "x" 1000)).1 =
      Except.error (.failedToWaitForConditions .scriptExecutionFailed) := by
  have hsc : stepConds drvTextExn urlTestNever (optsTextOnly "x" 1000) 0
      (initConditions (optsTextOnly "x" 1000)) =
      (Except.error .scriptExecutionFailed, [DriverEvent.textEval]) := by
    decide
  simp only [waitFor]
  rw [if_neg (by decide)]
  simp only [waitBody]
  rw [waitLoop, dif_pos (by decide)]
  rw [hsc]

theorem initConditions_shape (o : WaitOptions) :
    condShape o (initConditions o) := by
  refine ⟨?_, ?_, ?_, ?_⟩ <;> simp only [initConditions] <;>
    split_ifs <;> simp_all

theorem waitBody_ok (drv : WaitDriver) (u : String → String → Bool)
    (o : WaitOptions) (timeout : Nat) (c0 : WaitConditions)
    (hsh : condShape o c0) (hpos : 0 < timeout) :
    ∀ r evb, waitBody drv u o timeout c0 = (Except.ok r, evb) →
      condShape o r.conditions ∧ r.success = allConditionsMet r.conditions := by
  intro r evb h
  simp only [waitBody] at h
  rcases hwl : waitLoop drv u o timeout 0 c0 with ⟨rl, evl⟩
  rw [hwl] at h
  dsimp only at h
  cases rl with
  | error er => simp at h
  | ok v =>
    dsimp only at h
    rcases hg : getActualState drv o with ⟨g, ev2⟩
    rw [hg] at h
    dsimp only at h
    cases g with
    | error er => simp at h
    | ok st =>
      simp only [Prod.mk.injEq, Except.ok.injEq] at h
      obtain ⟨hr, _⟩ := h
      subst hr
      have hlo := waitLoop_ok drv u o timeout timeout 0 c0 (by omega)
        v.1 v.2.1 v.2.2 evl hwl
      exact ⟨hlo.1 hsh, hlo.2 (by simpa using hpos)⟩

/-- C7: `waitFor` with no conditions immediately reports `success:true`
with `timeElapsed` 0 (vacuous conjunction); in general, whenever the call
resolves, each per-kind flag in the returned `conditions` is present
exactly when that kind was requested (an absent kind never appears as
`false`), and `success` equals the conjunction over the present flags
(absent kinds are ignored), so `success` is true iff every requested
condition is satisfied. -/
theorem waitFor_success_iff_conditions :
    (∀ (drv : WaitDriver) (u : String → String → Bool) (o : WaitOptions)
        (r : WaitResult) (ev : List DriverEvent),
      waitFor drv u o = (Except.ok r, ev) →
      (r.conditions.element.isSome = strTruthy o.element ∧
       r.conditions.text.isSome = strTruthy o.text ∧
       r.conditions.url.isSome = strTruthy o.url ∧
       r.conditions.networkIdle.isSome = o.networkIdle.isSome) ∧
      r.success = allConditionsMet r.conditions) ∧
    (∀ (drv : WaitDriver) (u : String → String → Bool) (urlv : String),
      drv.finalUrl = some urlv →
      waitFor drv u
        { element := none, text := none, url := none, networkIdle := none,
          timeout := none } =
        (Except.ok
          { success := true,
            conditions := { element := none, text := none, url := none,
                            networkIdle := none },
            actualState := { currentUrl := urlv, elementFound := false,
                             textFound := false },
            timeElapsed := 0 }, [DriverEvent.urlEval])) := by
  constructor
  · intro drv u o r ev h
    have hb := waitBody_ok drv u o (effectiveTimeout o.timeout)
      (initConditions o) (initConditions_shape o)
      (effectiveTimeout_pos o.timeout)
    simp only [waitFor] at h
    rcases hwb : waitBody drv u o (effectiveTimeout o.timeout)
        (initConditions o) with ⟨rb, evb⟩
    by_cases hni : o.networkIdle.isSome = true
    · rw [if_pos hni, if_pos hni] at h
      by_cases hen : drv.networkEnableOk = true
      · rw [if_pos hen] at h
        rw [hwb] at h
        dsimp only at h
        cases rb with
        | error er => simp at h
        | ok rb2 =>
          simp only [Prod.mk.injEq, Except.ok.injEq] at h
          obtain ⟨hr, _⟩ := h
          subst hr
          exact hb rb2 evb hwb
      · rw [if_neg hen] at h
        simp at h
    · rw [if_neg hni, if_neg hni] at h
      rw [hwb] at h
      dsimp only at h
      cases rb with
      | error er => simp at h
      | ok rb2 =>
        simp only [Prod.mk.injEq, Except.ok.injEq, List.append_nil] at h
        obtain ⟨hr, _⟩ := h
        subst hr
        exact hb rb2 evb hwb
  · intro drv u urlv hf
    simp only [waitFor]
    rw [if_neg (by decide), if_neg (by decide)]
    simp only [waitBody]
    rw [waitLoop, dif_pos (by decide)]
    have hsc : stepConds drv u
        { element := none, text := none, url := none, networkIdle := none,
          timeout := none } 0
        (initConditions
          { element := none, text := none, url := none, networkIdle := none,
            timeout := none }) =
        (Except.ok
          { element := none, text := none, url := none, networkIdle := none },
         []) := by
      simp [stepConds, checkElement, checkText, checkUrl, checkNetworkIdle,
        initConditions, strTruthy]
    rw [hsc]
    dsimp only
    rw [if_pos (by decide)]
    simp only [getActualState]
    rw [hf]
    simp [strTruthy, initConditions]

/-- C7 witness: a call with no conditions resolves immediately with a
fully-absent condition set, vacuous success, and `success` equal to the
conjunction over present flags. -/
theorem waitFor_success_iff_conditions_witness :
    ((none : Option Bool).isSome = strTruthy (none : Option String) ∧
     (none : Option Bool).isSome = strTruthy (none : Option String) ∧
     (none : Option Bool).isSome = strTruthy (none : Option String) ∧
     (none : Option Bool).isSome = (none : Option Nat).isSome) ∧
    true = allConditionsMet
      { element := none, text := none, url := none, networkIdle := none } :=
  waitFor_success_iff_conditions.1 drvTextExn urlTestNever
    { element := none, text := none, url := none, networkIdle := none,
      timeout := none }
    { success := true,
      conditions := { element := none, text := none, url := none,
                      networkIdle := none },
      actualState := { currentUrl := "u", elementFound := false,
                       textFound := false },
      timeElapsed := 0 }
    [DriverEvent.urlEval]
    (waitFor_success_iff_conditions.2 drvTextExn urlTestNever "u" rfl)

/-- C10: within one `waitFor` poll iteration, every condition flag is
latched — a condition is probed only while its flag is still false
(exactly one probe event when requested and unsatisfied, none once the
flag is true) and a true flag is never reset — and consequently a call
can report `success:true` from the latched flags even though the element
is no longer found by the final `getActualState` pass. -/
theorem waitFor_condition_latching :
    (∀ (drv : WaitDriver) (u : String → String → Bool) (o : WaitOptions)
        (i : Nat) (c c2 : WaitConditions) (ev : List DriverEvent),
      stepConds drv u o i c = (Except.ok c2, ev) →
      ((c.element = some true → c2.element = some true ∧
          ev.count DriverEvent.domQuery = 0) ∧
       (c.text = some true → c2.text = some true ∧
          ev.count DriverEvent.textEval = 0) ∧
       (c.url = some true → c2.url = some true ∧
          ev.count DriverEvent.urlEval = 0) ∧
       (c.networkIdle = some true → c2.networkIdle = some true) ∧
       (strTruthy o.element = true → c.element = some false →
          ev.count DriverEvent.domQuery = 1) ∧
       (strTruthy o.text = true → c.text = some false →
          ev.count DriverEvent.textEval = 1) ∧
       (strTruthy o.url = true → c.url = some false →
          ev.count DriverEvent.urlEval = 1))) ∧
    (waitFor drvElementVanishes urlTestNever (optsElementOnly "#btn")).1 =
      Except.ok
        { success := true,
          conditions := { element := some true, text := none, url := none,
                          networkIdle := none },
          actualState := { currentUrl := "u", elementFound := false,
                           textFound := false },
          timeElapsed := 0 } := by
  constructor
  · intro drv u o i c c2 ev h
    obtain ⟨l1, l2, l3, l4, _, hev⟩ := stepConds_ok drv u o i c c2 ev h
    refine ⟨fun hx => ⟨l1 hx, ?_⟩, fun hx => ⟨l2 hx, ?_⟩,
      fun hx => ⟨l3 hx, ?_⟩, l4, fun hq hx => ?_, fun hq hx => ?_,
      fun hq hx => ?_⟩ <;>
      · rw [hev]
        split_ifs <;> simp_all [List.count_append]
  · have hsc : stepConds drvElementVanishes urlTestNever
        (optsElementOnly "#btn") 0
        (initConditions (optsElementOnly "#btn")) =
        (Except.ok { element := some true, text := none, url := none,
                     networkIdle := none },
         [DriverEvent.domQuery]) := by decide
    have hgas : getActualState drvElementVanishes (optsElementOnly "#btn") =
        (Except.ok { currentUrl := "u", elementFound := false,
                     textFound := false },
         [DriverEvent.urlEval, DriverEvent.domQuery]) := by decide
    simp only [waitFor]
    rw [if_neg (by decide)]
    simp only [waitBody]
    rw [waitLoop, dif_pos (by decide)]
    rw [hsc]
    dsimp only
    rw [if_pos (by decide), hgas]
    rfl

/-- C10 witness: an iteration entered with the element flag already true
leaves the flag true and performs no element probe. -/
theorem waitFor_condition_latching_witness :
    (({ element := some true, text := none, url := none,
        networkIdle := none } : WaitConditions).element = some true ∧
     ([] : List DriverEvent).count DriverEvent.domQuery = 0) :=
  (waitFor_condition_latching.1 drvElementVanishes urlTestNever
      (optsElementOnly "#btn") 0
      { element := some true, text := none, url := none, networkIdle := none }
      { element := some true, text := none, url := none, networkIdle := none }
      [] (by decide)).1 rfl

/-! ### Substring semantics of the in-page text probe -/

theorem charsLeading_iff (n : List Char) :
    ∀ h, charsLeading n h = true ↔ ∃ rest, h = n ++ rest := by
  induction n with
  | nil =>
    intro h
    simp [charsLeading]
  | cons a as ih =>
    intro h
    cases h with
    | nil => simp [charsLeading]
    | cons b bs =>
      simp only [charsLeading, Bool.and_eq_true, beq_iff_eq,
        List.cons_append, List.cons.injEq]
      constructor
      · rintro ⟨hab, hrest⟩
        obtain ⟨rest, hr⟩ := (ih bs).1 hrest
        exact ⟨rest, hab.symm, hr⟩
      · rintro ⟨rest, hb, hbs⟩
        exact ⟨hb.symm, (ih bs).2 ⟨rest, hbs⟩⟩

theorem charsContains_iff (h : List Char) :
    ∀ n, charsContains h n = true ↔ ∃ pre post, h = pre ++ n ++ post := by
  induction h with
  | nil =>
    intro n
    simp only [charsContains, List.isEmpty_iff]
    constructor
    · intro hn
      exact ⟨[], [], by simp [hn]⟩
    · rintro ⟨pre, post, hp⟩
      rcases List.append_eq_nil.1 (List.append_eq_nil.1 hp.symm).1 with ⟨_, h2⟩
      exact h2
  | cons a t ih =>
    intro n
    simp only [charsContains, Bool.or_eq_true]
    constructor
    · rintro (hl | hc)
      · obtain ⟨rest, hr⟩ := (charsLeading_iff n (a :: t)).1 hl
        exact ⟨[], rest, by simp [hr]⟩
      · obtain ⟨pre, post, hp⟩ := (ih n).1 hc
        exact ⟨a :: pre, post, by simp [hp]⟩
    · rintro ⟨pre, post, hp⟩
      cases pre with
      | nil =>
        exact Or.inl ((charsLeading_iff n (a :: t)).2 ⟨post, by simpa using hp⟩)
      | cons p ps =>
        simp only [List.cons_append, List.cons.injEq] at hp
        exact Or.inr ((ih n).2 ⟨ps, post, hp.2⟩)

/-- C8 (amended): the text condition of `waitFor` is a **case-sensitive**
substring match — the in-page probe reports a match exactly when the page
body text contains the requested string with identical letter case — and
for every page that does contain the requested string verbatim (and a
non-empty request), `waitFor` reports `success:true` on the very first
poll, before the deadline, with the text flag satisfied. -/
theorem waitFor_text_case_sensitive_substring :
    (∀ page t : String, textProbeScript page t = true ↔
      ∃ pre post, page.data = pre ++ t.data ++ post) ∧
    (∀ (page t : String) (tmo : Nat), t ≠ "" → textProbeScript page t = true →
      (waitFor (drvTextPage page t) urlTestNever (optsTextOnly t tmo)).1 =
        Except.ok
          { success := true,
            conditions := { element := none, text := some true, url := none,
                            networkIdle := none },
            actualState := { currentUrl := "u", elementFound := false,
                             textFound := true },
            timeElapsed := 0 }) := by
  constructor
  · intro page t
    exact charsContains_iff page.data t.data
  · intro page t tmo hne hmatch
    have htb : (t == "") = false := by
      simpa using hne
    have hsc : stepConds (drvTextPage page t) urlTestNever
        (optsTextOnly t tmo) 0
        (initConditions (optsTextOnly t tmo)) =
        (Except.ok { element := none, text := some true, url := none,
                     networkIdle := none },
         [DriverEvent.textEval]) := by
      simp [stepConds, checkElement, checkText, checkUrl, checkNetworkIdle,
        initConditions, strTruthy, drvTextPage, optsTextOnly, htb, hmatch]
    have hgas : getActualState (drvTextPage page t) (optsTextOnly t tmo) =
        (Except.ok { currentUrl := "u", elementFound := false,
                     textFound := true },
         [DriverEvent.urlEval, DriverEvent.textEval]) := by
      simp [getActualState, drvTextPage, optsTextOnly, strTruthy, htb, hmatch]
    simp only [waitFor]
    rw [if_neg (by simp [optsTextOnly])]
    simp only [waitBody]
    rw [waitLoop, dif_pos (by simpa using effectiveTimeout_pos (some tmo))]
    rw [hsc]
    dsimp only
    rw [if_pos (by decide), hgas]
    rfl

/-- C8 witness: the spec scenario — text "Saved" against a page containing
"Successfully Saved" — succeeds immediately (exact-case substring hit). -/
theorem waitFor_text_case_sensitive_substring_witness :
    (waitFor (drvTextPage "Successfully Saved" "Saved") urlTestNever
        (optsTextOnly "Saved" 1000)).1 =
      Except.ok
        { success := true,
          conditions := { element := none, text := some true, url := none,
                          networkIdle := none },
          actualState := { currentUrl := "u", elementFound := false,
                           textFound := true },
          timeElapsed := 0 } :=
  waitFor_text_case_sensitive_substring.2 "Successfully Saved" "Saved" 1000
    (by decide) (by decide)

/-- C8 counterexample: the page "Successfully Saved" contains the
requested string "SAVED" up to letter case, yet `waitFor` times out with
the text condition unsatisfied — the match is case-sensitive, not
case-insensitive. -/
theorem waitFor_text_case_mismatch_cex :
    jsIncludes (lowerStr "Successfully Saved") (lowerStr "SAVED") = true ∧
    (waitFor (drvTextPage "Successfully Saved" "SAVED") urlTestNever
        (optsTextOnly "SAVED" 100)).1 =
      Except.ok
        { success := false,
          conditions := { element := none, text := some false, url := none,
                          networkIdle := none },
          actualState := { currentUrl := "u", elementFound := false,
                           textFound := false },
          timeElapsed := 100 } := by
  constructor
  · decide
  · have hsc : stepConds (drvTextPage "Successfully Saved" "SAVED")
        urlTestNever (optsTextOnly "SAVED" 100) 0
        (initConditions (optsTextOnly "SAVED" 100)) =
        (Except.ok { element := none, text := some false, url := none,
                     networkIdle := none },
         [DriverEvent.textEval]) := by decide
    have hgas : getActualState (drvTextPage "Successfully Saved" "SAVED")
        (optsTextOnly "SAVED" 100) =
        (Except.ok { currentUrl := "u", elementFound := false,
                     textFound := false },
         [DriverEvent.urlEval, DriverEvent.textEval]) := by decide
    simp only [waitFor]
    rw [if_neg (by decide)]
    simp only [waitBody]
    rw [waitLoop, dif_pos (by decide)]
    rw [hsc]
    dsimp only
    rw [if_neg (by decide)]
    rw [waitLoop, dif_neg (by decide)]
    dsimp only
    rw [hgas]
    rfl

/-- C9 witness: a concrete `networkIdle` call registers both callbacks
once, removes none, and disables the network domain once. -/
theorem waitFor_registers_two_callbacks_witness :
    (waitFor drvTextExn urlTestNever
        { element := none, text := none, url := none, networkIdle := some 0,
          timeout := some 100 }).2.count DriverEvent.cbRequestWillBeSent = 1 ∧
    (waitFor drvTextExn urlTestNever
        { element := none, text := none, url := none, networkIdle := some 0,
          timeout := some 100 }).2.count DriverEvent.cbLoadingFinished = 1 ∧
    (waitFor drvTextExn urlTestNever
        { element := none, text := none, url := none, networkIdle := some 0,
          timeout := some 100 }).2.count DriverEvent.cbRemoved = 0 ∧
    (waitFor drvTextExn urlTestNever
        { element := none, text := none, url := none, networkIdle := some 0,
          timeout := some 100 }).2.count DriverEvent.networkDisable = 1 :=
  waitFor_registers_two_callbacks drvTextExn urlTestNever
    { element := none, text := none, url := none, networkIdle := some 0,
      timeout := some 100 } rfl rfl

end ChromiumCdp
